import Mathlib

/-!
Verification development for the `simple_detailed_error` crate.

Strings are modelled at the character level (`Str := List Char`); Rust byte
offsets and byte lengths coincide with character offsets for the ASCII data
used throughout, and all label/prefix strings in the renderer are ASCII.
The terminal styling primitives of the external `colored` crate are
abstracted as an arbitrary function `styleFn : Colorization → Str → Str`.
-/

/-- Character-level model of Rust `&str` contents. -/
abbrev Str := List Char

/-- Coerce a Lean string literal to the character-level model. -/
def str (s : String) : Str := s.data

/-- ASCII fragment of Rust `char::is_whitespace` (all whitespace occurring in
the crate's data is ASCII). -/
def rustIsWhitespace (c : Char) : Bool :=
  c = ' ' || c = '\t' || c = '\n' || c = '\r'

/-- Model of Rust `str::trim`. -/
def trimStr (s : Str) : Str :=
  ((s.dropWhile rustIsWhitespace).reverse.dropWhile rustIsWhitespace).reverse

/-- Decimal rendering of a natural number (models Rust's `Display` for
`usize`). -/
def natRepr (n : Nat) : Str := Nat.toDigits 10 n

/-- Split a character list at every newline, keeping empty pieces
(the full split that `str::lines` is derived from). -/
def splitNL : Str → List Str
  | [] => [[]]
  | c :: rest =>
    match splitNL rest with
    | [] => if c = '\n' then [[], []] else [[c]]
    | l :: ls => if c = '\n' then [] :: l :: ls else (c :: l) :: ls

/-- Second stage of the `str::lines` model: every piece except the last was
terminated by a `'\n'` and loses one trailing `'\r'` (a `"\r\n"` ending); the
last piece is unterminated — it is dropped when empty and kept verbatim
otherwise. -/
def rustLinesAux : List Str → List Str
  | [] => []
  | [last] => if last = [] then [] else [last]
  | piece :: rest =>
    (if piece.getLast? = some '\r' then piece.dropLast else piece) :: rustLinesAux rest

/-- Model of Rust `str::lines`. -/
def rustLines (s : Str) : List Str :=
  rustLinesAux (splitNL s)

-- Quick sanity examples for the primitives.
example : rustLines (str "a\nb") = [str "a", str "b"] := by decide
example : rustLines (str "a\n") = [str "a"] := by decide
example : rustLines (str "") = [] := by decide
example : rustLines (str "a\n\n") = [str "a", str ""] := by decide
example : natRepr 210 = str "210" := by decide
example : trimStr (str "  x ") = str "x" := by decide

/-! ## Shared formatting primitives (src/formatting.rs) -/

/-- `formatting::pluralize`: `0 → on_empty`, `1 → "1 word"`, `n → "n words"`. -/
def pluralize (n : Nat) (word_to_pluralize : Str) (on_empty : Str) : Str :=
  match n with
  | 0 => on_empty
  | 1 => str "1 " ++ word_to_pluralize
  | n => natRepr n ++ str " " ++ word_to_pluralize ++ str "s"

/-- `formatting::join_strings`: concatenate, inserting `separator` before every
item except the first. -/
def join_strings (separator : Str) : List Str → Str
  | [] => []
  | [s] => s
  | s :: rest => s ++ separator ++ join_strings separator rest

/-- `formatting::ident_lines_except_first`: prefix every line except the first
with `spaces` spaces. -/
def ident_lines_except_first (prefixed_contents : Str) (spaces : Nat) : Str :=
  let spacing : Str := List.replicate spaces ' '
  join_strings (str "\n")
    (match rustLines prefixed_contents with
     | [] => []
     | first :: rest => first :: rest.map (fun line => spacing ++ line))

example : pluralize 0 (str "cause") (str "") = str "" := by decide
example : pluralize 1 (str "cause") (str "") = str "1 cause" := by decide
example : pluralize 2 (str "cause") (str "") = str "2 causes" := by decide
example : ident_lines_except_first (str "Causes: \n- X") 2 = str "Causes: \n  - X" := by decide

/-! ## The style model (src/main.rs: `Colorization`, `Styles`) -/

/-- The nine `colored::Styles` values indexed by `sytle_to_index`. -/
inductive Styles where
  | Clear | Bold | Dimmed | Underline | Reversed | Italic | Blink | Hidden | Strikethrough
  deriving DecidableEq

/-- `sytle_to_index` (name as in the source). -/
def sytle_to_index : Styles → Nat
  | .Clear => 0
  | .Bold => 1
  | .Dimmed => 2
  | .Underline => 3
  | .Reversed => 4
  | .Italic => 5
  | .Blink => 6
  | .Hidden => 7
  | .Strikethrough => 8

/-- A style directive: optional foreground, optional background, and an
optional `u16` bitmask of attributes (`style_const`).  Colors are coded as
naturals; the bitmask is a natural, which agrees with `u16` on all bit
operations used (every constructed mask is `< 2^9`). -/
structure Colorization where
  foreground : Option Nat
  background : Option Nat
  style_const : Option Nat
  deriving DecidableEq

/-- `Colorization::new`. -/
def Colorization.new : Colorization :=
  { foreground := none, background := none, style_const := none }

/-- `Colorization::style`: setting `Clear` resets the mask to just the clear
bit; any other style is or-ed into the (possibly freshly zeroed) mask. -/
def Colorization.style (this : Colorization) (s : Styles) : Colorization :=
  match s with
  | .Clear => { this with style_const := some (1 <<< sytle_to_index .Clear) }
  | s =>
    let this_style_const := (this.style_const).getD 0
    { this with style_const := some (this_style_const ||| (1 <<< sytle_to_index s)) }

/-- `Colorization::join_const`: overlay `other` on `this`.  Present
foreground/background of `other` win; when both attribute masks are present
and `other`'s carries the clear bit, `other` replaces everything; when both
are present without clear, the masks are or-ed; otherwise a present mask of
`other` replaces an absent one. -/
def Colorization.join_const (this other : Colorization) : Colorization :=
  let fg := if other.foreground.isSome then other.foreground else this.foreground
  let bg := if other.background.isSome then other.background else this.background
  match this.style_const, other.style_const with
  | some this_sc, some other_sc =>
    if other_sc &&& (1 <<< sytle_to_index .Clear) = 1 <<< sytle_to_index .Clear then
      { foreground := other.foreground, background := other.background,
        style_const := other.style_const }
    else
      { foreground := fg, background := bg, style_const := some (this_sc ||| other_sc) }
  | none, some _ => { foreground := fg, background := bg, style_const := other.style_const }
  | _, none => { foreground := fg, background := bg, style_const := this.style_const }

example :
    Colorization.join_const ⟨some 1, none, none⟩ ⟨none, none, some 1⟩
      = ⟨some 1, none, some 1⟩ := by decide

/-! ## The range styling engine (src/main.rs: `colorize` and helpers)

A `&str` slice is modelled as its starting memory address together with its
contents; `mem_dir_of_string` recovers the `(start, end)` byte-address pair
that the source computes by pointer arithmetic. -/

/-- A string slice: starting address plus contents. -/
structure Slice where
  addr : Nat
  text : Str
  deriving DecidableEq

/-- `mem_dir_of_string`: address range covered by a slice. -/
def mem_dir_of_string (s : Slice) : Nat × Nat :=
  (s.addr, s.addr + s.text.length)

/-- `range_contains_other`: despite its name this tests *overlap* of the two
half-open ranges, not containment. -/
def range_contains_other (range_1_start range_1_end range_2_start range_2_end : Nat) : Bool :=
  range_2_end > range_1_start && range_2_start < range_1_end

/-- The marker validation/clamping pipeline of `colorize` (its first
`ranges_and_modifiers` value): map each marker slice to its address range,
keep those overlapping the input's range, shift/clamp them into
`[0, input_len]`, and drop empty results. -/
def processMarkers (input : Slice) (input_modifiers : List (Slice × Colorization)) :
    List (Nat × Nat × Colorization) :=
  let (input_start, input_end) := mem_dir_of_string input
  let input_len := input.text.length
  ((((input_modifiers.map
      (fun m => let (offset_start, offset_end) := mem_dir_of_string m.1
                (offset_start, offset_end, m.2)))
    |>.filter (fun r => range_contains_other r.1 r.2.1 input_start input_end))
    |>.map (fun r => (min (r.1 - input_start) input_len, min (r.2.1 - input_start) input_len, r.2.2)))
    |>.filter (fun r => decide (r.2.1 > r.1)))

/-- Surviving markers of `colorize`, after the optional whole-input
colorization has been inserted in front (lowest priority). -/
def survivingMarkers (input : Slice) (input_modifiers : List (Slice × Colorization))
    (general_colorization : Option Colorization) : List (Nat × Nat × Colorization) :=
  processMarkers input
    (match general_colorization with
     | some g => (input, g) :: input_modifiers
     | none => input_modifiers)

/-- Remove consecutive duplicates (itertools `dedup` after `sorted`). -/
def dedupConsec : List Nat → List Nat
  | [] => []
  | [a] => [a]
  | a :: b :: rest => if a = b then dedupConsec (b :: rest) else a :: dedupConsec (b :: rest)

/-- `bounds` of `colorize`: the sorted, deduplicated cut points collected from
the surviving markers' starts and ends. -/
def cutPoints (input : Slice) (input_modifiers : List (Slice × Colorization))
    (general_colorization : Option Colorization) : List Nat :=
  dedupConsec (List.insertionSort (· ≤ ·)
    ((survivingMarkers input input_modifiers general_colorization).flatMap
      (fun r => [r.1, r.2.1])))

/-- Adjacent pairs (`windows(2)` of the cut-point list). -/
def pairsOf : List Nat → List (Nat × Nat)
  | a :: b :: rest => (a, b) :: pairsOf (b :: rest)
  | _ => []

/-- The elementary segments of `colorize`. -/
def segmentsOf (input : Slice) (input_modifiers : List (Slice × Colorization))
    (general_colorization : Option Colorization) : List (Nat × Nat) :=
  pairsOf (cutPoints input input_modifiers general_colorization)

/-- The second `ranges_and_modifiers` value of `colorize`: each elementary
segment with the fold (`join_const`, in listed order) of all surviving
markers overlapping it. -/
def colorizePlan (input : Slice) (input_modifiers : List (Slice × Colorization))
    (general_colorization : Option Colorization) : List (Nat × Nat × Colorization) :=
  let survivors := survivingMarkers input input_modifiers general_colorization
  (segmentsOf input input_modifiers general_colorization).map
    (fun seg =>
      (seg.1, seg.2,
        ((survivors.filter
            (fun r => range_contains_other seg.1 seg.2 r.1 r.2.1)).foldl
          (fun colorization r => Colorization.join_const colorization r.2.2)
          Colorization.new)))

/-- Final assembly loop of `colorize`: process segments by decreasing start
offset, replacing each segment of the current string with its styled form.
The `colored`-library styling calls (lines 456–476 of main.rs) are abstracted
as `styleFn`. -/
def renderPlan (styleFn : Colorization → Str → Str) (text : Str)
    (plan : List (Nat × Nat × Colorization)) : Str :=
  (List.insertionSort (fun (a b : Nat × Nat × Colorization) => b.1 ≤ a.1) plan).foldl
    (fun input seg =>
      let modified := styleFn seg.2.2 ((input.drop seg.1).take (seg.2.1 - seg.1))
      input.take seg.1 ++ modified ++ input.drop seg.2.1)
    text

/-- `colorize` from src/main.rs. -/
def colorize (styleFn : Colorization → Str → Str) (input : Slice)
    (input_modifiers : List (Slice × Colorization))
    (general_colorization : Option Colorization) : Str :=
  renderPlan styleFn input.text (colorizePlan input input_modifiers general_colorization)

/-- Modelled from the spec: the external crate function
`string_colorization::colorize` used by `SimpleError::__as_display_struct` is
not part of this repository's sources; per the spec (§4.1) it is the same
range-styling engine, taking the whole-input style before the per-substring
markers. -/
def string_colorization_colorize (styleFn : Colorization → Str → Str) (input : Slice)
    (general_colorizer : Option Colorization)
    (substring_colorizers : List (Slice × Colorization)) : Str :=
  colorize styleFn input substring_colorizers general_colorizer

-- Sanity: a marker that is a genuine sub-slice is clamped to its relative range.
example :
    survivingMarkers ⟨0, str "if a==1"⟩ [(⟨3, str "a"⟩, ⟨some 2, none, none⟩)] none
      = [(3, 4, ⟨some 2, none, none⟩)] := by decide
example :
    segmentsOf ⟨0, str "if a==1"⟩ [(⟨3, str "a"⟩, ⟨some 2, none, none⟩)] none
      = [(3, 4)] := by decide
example :
    colorize (fun _ s => '[' :: s ++ [']']) ⟨0, str "if a==1"⟩
      [(⟨3, str "a"⟩, ⟨some 2, none, none⟩)] none = str "if [a]==1" := by decide

/-! ## The error tree (src/simple_error_explanation.rs, src/simple_error.rs) -/

/-- `SimpleErrorExplanation` (colorization feature enabled). -/
structure SimpleErrorExplanation where
  explanation : Option Str
  solution : Option Str
  whole_marker : Option Colorization
  colorization_markers : List (Slice × Colorization)

/-- `Default` for `SimpleErrorExplanation`. -/
def SimpleErrorExplanation.default : SimpleErrorExplanation :=
  { explanation := none, solution := none, whole_marker := none, colorization_markers := [] }

/-- `SimpleError`.  The `error_detail` trait object is modelled by the
`SimpleErrorExplanation` its `explain_error` returns (the only use the
renderer makes of it). -/
inductive SimpleError where
  | mk (where_ : Option Slice) (error_detail : Option SimpleErrorExplanation)
      (start_point_of_error end_point_of_error : Option (Nat × Nat))
      (causes : List SimpleError)

/-- `SimpleErrorDisplayInfo` (src/simple_error_display_info.rs). -/
inductive SimpleErrorDisplayInfo where
  | mk (at_ reason solution : Option Str)
      (on_line_and_column up_to_line_an_column : Option (Nat × Nat))
      (unexplained_causes : Nat)
      (explained_causes : List SimpleErrorDisplayInfo)

namespace SimpleErrorDisplayInfo

def at_ : SimpleErrorDisplayInfo → Option Str | .mk a _ _ _ _ _ _ => a

def reason : SimpleErrorDisplayInfo → Option Str | .mk _ r _ _ _ _ _ => r

def solution : SimpleErrorDisplayInfo → Option Str | .mk _ _ s _ _ _ _ => s

def on_line_and_column : SimpleErrorDisplayInfo → Option (Nat × Nat) | .mk _ _ _ o _ _ _ => o

def up_to_line_an_column : SimpleErrorDisplayInfo → Option (Nat × Nat) | .mk _ _ _ _ u _ _ => u

def unexplained_causes : SimpleErrorDisplayInfo → Nat | .mk _ _ _ _ _ n _ => n

def explained_causes : SimpleErrorDisplayInfo → List SimpleErrorDisplayInfo
  | .mk _ _ _ _ _ _ e => e

end SimpleErrorDisplayInfo

mutual

/-- `SimpleErrorDisplayInfo::complexity`: itself plus all (explained)
causes it holds, recursively. -/
def SimpleErrorDisplayInfo.complexity : SimpleErrorDisplayInfo → Nat
  | .mk _ _ _ _ _ _ explained_causes => 1 + complexityList explained_causes

/-- Sum of complexities over a list of display infos. -/
def complexityList : List SimpleErrorDisplayInfo → Nat
  | [] => 0
  | c :: cs => SimpleErrorDisplayInfo.complexity c + complexityList cs

end

/-- `SimpleErrorDisplayInfo::is_explained`. -/
def SimpleErrorDisplayInfo.is_explained (info : SimpleErrorDisplayInfo) : Bool :=
  info.at_.isSome || info.reason.isSome || info.solution.isSome ||
    info.on_line_and_column.isSome || !info.explained_causes.isEmpty

/-- Option filter (Rust `Option::filter` with a boolean predicate). -/
def optFilter (p : α → Bool) : Option α → Option α
  | some a => if p a then some a else none
  | none => none

/-- Comparison used to sort explained causes (`sort_by_key(complexity)`). -/
def byComplexity (a b : SimpleErrorDisplayInfo) : Prop :=
  a.complexity ≤ b.complexity

instance : DecidableRel byComplexity := fun a b => Nat.decLe a.complexity b.complexity

instance : IsTotal SimpleErrorDisplayInfo byComplexity :=
  ⟨fun a b => Nat.le_total a.complexity b.complexity⟩

instance : IsTrans SimpleErrorDisplayInfo byComplexity :=
  ⟨fun _ _ _ h h' => Nat.le_trans h h'⟩

mutual

/-- `SimpleError::__as_display_struct`: resolve the detail's explanation,
colorize the non-empty location, recurse into causes, split them into
explained ones and a count of unexplained ones, and stably sort the explained
ones by ascending complexity.  `List.insertionSort` with `byComplexity`
models Rust's stable `sort_by_key`. -/
def SimpleError.__as_display_struct (styleFn : Colorization → Str → Str) :
    SimpleError → SimpleErrorDisplayInfo
  | .mk where_ error_detail start_point_of_error end_point_of_error causes =>
    let error_explanation := error_detail.getD SimpleErrorExplanation.default
    let at_ :=
      ((where_.map (fun w =>
          string_colorization_colorize styleFn w error_explanation.whole_marker
            error_explanation.colorization_markers))
        |> optFilter (fun s => !s.isEmpty)).map trimStr
    let results := displayList styleFn causes
    let explained_causes := results.filter (fun c => c.is_explained)
    let unexplained_causes := (results.filter (fun c => !c.is_explained)).length
    .mk at_ error_explanation.explanation error_explanation.solution
      start_point_of_error end_point_of_error unexplained_causes
      (List.insertionSort byComplexity explained_causes)

/-- `__as_display_struct` mapped over a cause list. -/
def displayList (styleFn : Colorization → Str → Str) :
    List SimpleError → List SimpleErrorDisplayInfo
  | [] => []
  | e :: es => SimpleError.__as_display_struct styleFn e :: displayList styleFn es

end

/-- The process-wide colorization state of the external `colored` crate:
an optional manual override (set by `set_override`) over an ambient
environment/tty default. -/
structure ShouldColorize where
  manual_override : Option Bool
  env_default : Bool
  deriving DecidableEq

/-- `SHOULD_COLORIZE.should_colorize()`: the manual override if set, else the
environment default. -/
def ShouldColorize.should_colorize (s : ShouldColorize) : Bool :=
  s.manual_override.getD s.env_default

/-- `SHOULD_COLORIZE.set_override(b)`. -/
def ShouldColorize.set_override (s : ShouldColorize) (b : Bool) : ShouldColorize :=
  { s with manual_override := some b }

/-- `SimpleError::as_display_struct`: when colorization is globally on and the
caller asked for a non-colorized struct, the global override is set to `false`
around the conversion and set to `true` afterwards.  The global state is
threaded explicitly. -/
def SimpleError.as_display_struct (styleFn : Colorization → Str → Str)
    (e : SimpleError) (colorize : Bool) (st : ShouldColorize) :
    SimpleErrorDisplayInfo × ShouldColorize :=
  let forced_no_colorization := !colorize && st.should_colorize
  let st := if forced_no_colorization then st.set_override false else st
  let res := SimpleError.__as_display_struct styleFn e
  let st := if forced_no_colorization then st.set_override true else st
  (res, st)

-- Sanity: a detail-less error with one sub-slice location.
example :
    (SimpleError.__as_display_struct (fun _ s => s)
        (.mk (some ⟨0, str "x"⟩) none none none [])).at_ = some (str "x") := by decide

/-! ## The display renderer (src/simple_error_display_info.rs) -/

/-- `usize::MAX`. -/
def USIZE_MAX : Nat := 2 ^ 64 - 1

/-- `usize::checked_add`. -/
def checkedAdd (a b : Nat) : Option Nat :=
  if a + b ≤ USIZE_MAX then some (a + b) else none

/-- The `location` line contents of `__as_display_string`. -/
def locationFrom (on_line_and_column up_to_line_an_column : Option (Nat × Nat)) : Option Str :=
  on_line_and_column.map (fun lc =>
    str "On line " ++ natRepr lc.1 ++ str " and column " ++ natRepr lc.2 ++
      ((up_to_line_an_column.map (fun lc2 =>
          str " up to line " ++ natRepr lc2.1 ++ str " and column " ++ natRepr lc2.2)).getD []))

/-- The `causes_count` ("Has:") contents of `__as_display_string`.  The local
variables keep the source's (swapped) names: `explained_causes_count` holds
the pluralized *unexplained* tally and vice versa, and the format string
interpolates `unexplained_causes_count` first. -/
def causesCountFrom (unexplained_causes explained_len : Nat) : Option Str :=
  let explained_causes_count :=
    (optFilter (fun s => !s.isEmpty) (some (pluralize unexplained_causes (str "unexplained cause") []))).map trimStr
  let unexplained_causes_count :=
    (optFilter (fun s => !s.isEmpty) (some (pluralize explained_len (str "explained cause") []))).map trimStr
  let causes_is_just_one_explained := explained_len = 1 && unexplained_causes = 0
  (if causes_is_just_one_explained then none
   else if explained_causes_count.isSome && unexplained_causes_count.isSome then
     some (unexplained_causes_count.getD [] ++ str " and " ++ explained_causes_count.getD [])
   else if explained_causes_count.isSome || unexplained_causes_count.isSome then
     explained_causes_count.or unexplained_causes_count
   else none).map (fun cause => cause ++ str ".")

/-- The `causes_prefix` field label of `__as_display_string`: "Cause" exactly
when there is one explained cause and no unexplained one. -/
def causesLabelFrom (unexplained_causes explained_len : Nat) : Str :=
  if explained_len = 1 && unexplained_causes = 0 then str "Cause" else str "Causes"

/-- Numbering of multiple explained causes (`enumerate` + `format!("- Cause nº {} -\n{cause}", cause_no + 1)`). -/
def numberCauses (cause_no : Nat) : List Str → List Str
  | [] => []
  | cause :: rest =>
    (str "- Cause nº " ++ natRepr (cause_no + 1) ++ str " -\n" ++ cause) ::
      numberCauses (cause_no + 1) rest

/-- The `explained_causes` block of `__as_display_string`, before the leading
newline is prepended: none for zero causes, the sole rendering inline for one,
numbered and blank-line-separated renderings for several.  It is given the
already-rendered cause strings (one per explained cause, in order). -/
def explainedCausesBlockFrom (rendered : List Str) : Option Str :=
  match rendered with
  | [] => none
  | [s] => some s
  | rendered => some (join_strings (str "\n\n") (numberCauses 0 rendered))

/-- One rendered field line of `__as_display_string`: label prefix (with "- "
when rendering as a cause), contents, and continuation-line indentation capped
at `max_ident` (plus 2 when nested as a cause). -/
def descriptionLineFrom (is_displaying_as_cause_of_other : Bool) (label : Str)
    (max_ident : Nat) (contents : Str) : Str :=
  let pfx := (if is_displaying_as_cause_of_other then str "- " else []) ++ label ++ str ": "
  let prefixed_contents := pfx ++ contents
  let extra_ident_on_causes := if is_displaying_as_cause_of_other then 2 else 0
  let spaces := min pfx.length ((checkedAdd max_ident extra_ident_on_causes).getD USIZE_MAX)
  ident_lines_except_first prefixed_contents spaces

/-- The `description_lines` list of `__as_display_string`: the six labelled
entries, keeping the present ones and rendering each field line. -/
def assembleLines (is_displaying_as_cause_of_other : Bool)
    (location where_ description solution causes_count : Option Str)
    (causes_label : Str) (explained_causes : Option Str) : List Str :=
  (([(str "Position", USIZE_MAX, location),
     (str "At", USIZE_MAX, where_),
     (str "Error", USIZE_MAX, description),
     (str "Solution", USIZE_MAX, solution),
     (str "Has", USIZE_MAX, causes_count),
     (causes_label, 2, explained_causes)] : List (Str × Nat × Option Str))
    |>.filter (fun entry => entry.2.2.isSome))
    |>.map (fun entry =>
      descriptionLineFrom is_displaying_as_cause_of_other entry.1 entry.2.1
        (entry.2.2.getD []))

mutual

/-- `SimpleErrorDisplayInfo::__as_display_string`. -/
def SimpleErrorDisplayInfo.__as_display_string :
    SimpleErrorDisplayInfo → Bool → Option Str
  | .mk at_ reason solution on_line_and_column up_to_line_an_column
      unexplained_causes explained_causes_list, is_displaying_as_cause_of_other =>
    let where_ := at_
    let location := locationFrom on_line_and_column up_to_line_an_column
    let description := reason.or (some (str "Unexplained error"))
    let causes_count := causesCountFrom unexplained_causes explained_causes_list.length
    let explained_causes :=
      (explainedCausesBlockFrom (renderCausesList explained_causes_list)).map
        (fun explained_cause => '\n' :: explained_cause)
    let causes_label := causesLabelFrom unexplained_causes explained_causes_list.length
    some (join_strings (str "\n")
      (assembleLines is_displaying_as_cause_of_other location where_ description
        solution causes_count causes_label explained_causes))

/-- Each explained cause rendered with `__as_display_string(true)`; the
source's `.unwrap()` on the recursive result is `getD []` (the recursive call
always returns `some`). -/
def renderCausesList : List SimpleErrorDisplayInfo → List Str
  | [] => []
  | c :: cs => (SimpleErrorDisplayInfo.__as_display_string c true).getD [] :: renderCausesList cs

end

/-- `SimpleErrorDisplayInfo::as_display_string`. -/
def SimpleErrorDisplayInfo.as_display_string (info : SimpleErrorDisplayInfo) : Str :=
  (info.__as_display_string false).getD (str "Error: Unexplained error")

-- Sanity: the empty display info renders the stand-in reason.
example :
    SimpleErrorDisplayInfo.as_display_string (.mk none none none none none 0 [])
      = str "Error: Unexplained error" := by decide

-- Sanity: the C1 fallback scenario (root with one empty cause) gains a Has line.
example :
    SimpleErrorDisplayInfo.as_display_string
        ((SimpleError.as_display_struct (fun _ s => s)
          (.mk none none none none [.mk none none none none []]) true ⟨none, false⟩).1)
      = str "Error: Unexplained error\nHas: 1 unexplained cause." := by decide

/-! ## Auxiliary predicates for the claim statements -/

mutual

/-- `P` holds of a display info and, recursively, of every explained cause at
every depth. -/
def AllInfos (P : SimpleErrorDisplayInfo → Prop) : SimpleErrorDisplayInfo → Prop
  | .mk at_ reason solution olc utlc unexpl explained_causes =>
    P (.mk at_ reason solution olc utlc unexpl explained_causes) ∧
      AllInfosList P explained_causes

/-- `AllInfos` over a list. -/
def AllInfosList (P : SimpleErrorDisplayInfo → Prop) : List SimpleErrorDisplayInfo → Prop
  | [] => True
  | c :: cs => AllInfos P c ∧ AllInfosList P cs

end

/-- Some segment of the list covers position `x`. -/
def coveredBy (segments : List (Nat × Nat)) (x : Nat) : Bool :=
  segments.any (fun seg => seg.1 ≤ x && x < seg.2)

/-! ## Claim C5: clear semantics of `join_const` -/

/-- C5 counterexample.  The claim says an overlay carrying the clear attribute
makes `join_const` fully replace the base's foreground, background and
attributes with the overlay's, "even when the base only set a single field
(such as a foreground with no attributes)".  Take base `⟨some 1, none, none⟩`
(only a foreground, no attribute mask) and overlay `⟨none, none, some 1⟩`
(the clear attribute, bit 0, and nothing else): full replacement would give
the overlay back, but the result keeps the base's foreground. -/
theorem C5_counterexample :
    Colorization.join_const ⟨some 1, none, none⟩ ⟨none, none, some 1⟩
        = ⟨some 1, none, some 1⟩ ∧
      (⟨some 1, none, some 1⟩ : Colorization) ≠ ⟨none, none, some 1⟩ ∧
      1 &&& (1 <<< sytle_to_index .Clear) = 1 <<< sytle_to_index .Clear := by
  refine ⟨by decide, by decide, by decide⟩

/-- C5 (amended): when the overlay carries the clear attribute *and the base's
attribute mask is present*, `join_const` fully replaces the base's foreground,
background and attributes with the overlay's; when the base's attribute mask
is absent, only the overlay's mask is taken and the base's present
foreground/background survive an absent overlay field. -/
theorem C5_clear_replaces (a b : Colorization) (sc : Nat)
    (ha : a.style_const.isSome = true) (hb : b.style_const = some sc)
    (hclear : sc &&& (1 <<< sytle_to_index .Clear) = 1 <<< sytle_to_index .Clear) :
    Colorization.join_const a b
      = ⟨b.foreground, b.background, b.style_const⟩ := by
  obtain ⟨afg, abg, asc⟩ := a
  obtain ⟨bfg, bbg, bsc⟩ := b
  obtain ⟨m, rfl⟩ := Option.isSome_iff_exists.mp ha
  simp only at hb
  subst hb
  simp only [sytle_to_index, Nat.shiftLeft_zero] at hclear
  simp [Colorization.join_const, sytle_to_index, hclear]

/-- C5 witness: the amended theorem applied at a base with a present mask. -/
theorem C5_clear_replaces_witness :
    Colorization.join_const ⟨some 7, some 8, some 2⟩ ⟨some 3, none, some 1⟩
      = ⟨some 3, none, some 1⟩ :=
  C5_clear_replaces ⟨some 7, some 8, some 2⟩ ⟨some 3, none, some 1⟩ 1
    (by decide) (by decide) (by decide)

/-! ## Claim C6: associativity of `join_const` -/

/-- Parity of a bitwise or. -/
theorem mod_two_lor (n p : Nat) : ((n ||| p) % 2 = 1) ↔ (n % 2 = 1 ∨ p % 2 = 1) := by
  have h := Nat.testBit_lor n p 0
  simp only [Nat.testBit_zero] at h
  rcases Nat.mod_two_eq_zero_or_one (n ||| p) with h1 | h1 <;>
  rcases Nat.mod_two_eq_zero_or_one n with h2 | h2 <;>
  rcases Nat.mod_two_eq_zero_or_one p with h3 | h3 <;>
    simp [h1, h2, h3] at h ⊢

/-- C6 counterexample.  `join_const` is not associative: with
`a = ⟨some 1, none, none⟩` (foreground only, no attribute mask),
`b = ⟨none, none, some 2⟩` (bold) and `c = ⟨none, none, some 1⟩` (clear),
`join(join(a,b),c)` clears the foreground but `join(a,join(b,c))` keeps it. -/
theorem C6_counterexample :
    Colorization.join_const
        (Colorization.join_const ⟨some 1, none, none⟩ ⟨none, none, some 2⟩)
        ⟨none, none, some 1⟩
      ≠ Colorization.join_const ⟨some 1, none, none⟩
          (Colorization.join_const ⟨none, none, some 2⟩ ⟨none, none, some 1⟩) := by
  decide

/-- C6 (amended): `join_const` is associative on styles whose attribute masks
are all present (`style_const` set); associativity can only fail when a style
with an absent attribute mask meets a clearing style. -/
theorem C6_join_const_assoc (a b c : Colorization)
    (ha : a.style_const.isSome = true) (hb : b.style_const.isSome = true)
    (hc : c.style_const.isSome = true) :
    Colorization.join_const (Colorization.join_const a b) c
      = Colorization.join_const a (Colorization.join_const b c) := by
  obtain ⟨afg, abg, asc⟩ := a
  obtain ⟨bfg, bbg, bsc⟩ := b
  obtain ⟨cfg, cbg, csc⟩ := c
  obtain ⟨m, rfl⟩ := Option.isSome_iff_exists.mp ha
  obtain ⟨n, rfl⟩ := Option.isSome_iff_exists.mp hb
  obtain ⟨p, rfl⟩ := Option.isSome_iff_exists.mp hc
  simp only [Colorization.join_const, sytle_to_index, Nat.shiftLeft_zero, Nat.and_one_is_mod]
  by_cases hp : p % 2 = 1
  · by_cases hn : n % 2 = 1 <;>
      · have hnp : (n ||| p) % 2 = 1 := (mod_two_lor n p).mpr (Or.inr hp)
        simp [hp, hn, hnp]
  · by_cases hn : n % 2 = 1
    · have hnp : (n ||| p) % 2 = 1 := (mod_two_lor n p).mpr (Or.inl hn)
      simp [hp, hn, hnp]
    · have hnp : ¬ ((n ||| p) % 2 = 1) := fun h => by
        rcases (mod_two_lor n p).mp h with h' | h' <;> [exact hn h'; exact hp h']
      simp only [hp, hn, hnp, if_false]
      cases cfg <;> cases bfg <;> cases afg <;> cases cbg <;> cases bbg <;> cases abg <;>
        simp [Nat.lor_assoc, hp, hn, hnp]

/-- C6 witness: the amended associativity applied at concrete styles with all
attribute masks present. -/
theorem C6_join_const_assoc_witness :
    Colorization.join_const
        (Colorization.join_const ⟨some 1, none, some 2⟩ ⟨none, some 4, some 6⟩)
        ⟨none, none, some 1⟩
      = Colorization.join_const ⟨some 1, none, some 2⟩
          (Colorization.join_const ⟨none, some 4, some 6⟩ ⟨none, none, some 1⟩) :=
  C6_join_const_assoc ⟨some 1, none, some 2⟩ ⟨none, some 4, some 6⟩ ⟨none, none, some 1⟩
    (by decide) (by decide) (by decide)

/-! ## Claim C9: restoration of the global colorization state -/

/-- C9 counterexample.  The claim says `as_display_struct` restores the
process-wide colorization override state exactly on every exit.  Starting
from a state with no manual override and a colorizing default, a call with
`colorize = false` returns with a manual override of `true` installed — a
different global state (observably: a later default change is now masked). -/
theorem C9_counterexample :
    (SimpleError.as_display_struct (fun _ s => s) (.mk none none none none [])
        false ⟨none, true⟩).2
      ≠ ⟨none, true⟩ := by
  decide

/-- C9 (amended): `as_display_struct` always preserves the *observable*
colorization decision (`should_colorize`) and the environment default, and it
restores the global state exactly whenever a manual override was already set
before the call; but it may turn an absent override into `some true`. -/
theorem C9_state_restored (styleFn : Colorization → Str → Str) (e : SimpleError)
    (colorizeArg : Bool) (st : ShouldColorize) :
    ((SimpleError.as_display_struct styleFn e colorizeArg st).2).should_colorize
        = st.should_colorize ∧
      ((SimpleError.as_display_struct styleFn e colorizeArg st).2).env_default
        = st.env_default ∧
      (st.manual_override.isSome = true →
        (SimpleError.as_display_struct styleFn e colorizeArg st).2 = st) := by
  obtain ⟨ov, d⟩ := st
  rcases ov with _ | b
  · cases colorizeArg <;> cases d <;>
      simp [SimpleError.as_display_struct, ShouldColorize.should_colorize,
        ShouldColorize.set_override]
  · cases colorizeArg <;> cases d <;> cases b <;>
      simp [SimpleError.as_display_struct, ShouldColorize.should_colorize,
        ShouldColorize.set_override]

/-! ## String helper lemmas -/

theorem join_strings_ne_nil_of_mem (sep : Str) (l : List Str) (x : Str)
    (hx : x ∈ l) (hne : x ≠ []) : join_strings sep l ≠ [] := by
  induction l with
  | nil => cases hx
  | cons y rest ih =>
    cases rest with
    | nil =>
      rcases List.mem_singleton.mp hx with rfl
      simpa [join_strings] using hne
    | cons z rest' =>
      rcases List.mem_cons.mp hx with rfl | hx'
      · simp only [join_strings, ne_eq, List.append_eq_nil]
        exact fun h => hne h.1.1
      · have h' := ih hx'
        simp only [join_strings, ne_eq, List.append_eq_nil] at h' ⊢
        exact fun h => h' h.2

theorem splitNL_ne_nil : ∀ s : Str, splitNL s ≠ []
  | [] => by simp [splitNL]
  | c :: rest => by
    cases h : splitNL rest <;> simp only [splitNL, h] <;> split <;> simp

theorem rustLines_cons_head (c : Char) (cs : Str) (hnl : c ≠ '\n') (hcr : c ≠ '\r') :
    ∃ l rest, rustLines (c :: cs) = (c :: l) :: rest := by
  obtain ⟨l0, ls0, h0⟩ : ∃ l0 ls0, splitNL cs = l0 :: ls0 := by
    cases h : splitNL cs with
    | nil => exact absurd h (splitNL_ne_nil cs)
    | cons a b => exact ⟨a, b, rfl⟩
  have h1 : splitNL (c :: cs) = (c :: l0) :: ls0 := by
    simp [splitNL, h0, hnl]
  rw [rustLines, h1]
  cases ls0 with
  | nil => exact ⟨l0, [], by simp [rustLinesAux]⟩
  | cons p ps =>
    by_cases hlast : (c :: l0).getLast? = some '\r'
    · cases l0 with
      | nil => simp at hlast; exact absurd hlast hcr
      | cons d ds =>
        exact ⟨(d :: ds).dropLast, rustLinesAux (p :: ps), by simp [rustLinesAux, hlast]⟩
    · exact ⟨l0, rustLinesAux (p :: ps), by simp [rustLinesAux, hlast]⟩

theorem ident_lines_ne_nil (c : Char) (cs : Str) (n : Nat) (hnl : c ≠ '\n') (hcr : c ≠ '\r') :
    ident_lines_except_first (c :: cs) n ≠ [] := by
  obtain ⟨l, rest, h⟩ := rustLines_cons_head c cs hnl hcr
  simp only [ident_lines_except_first, h]
  exact join_strings_ne_nil_of_mem _ _ (c :: l) (List.mem_cons_self _ _) (by simp)

/-- The mandatory Error line of any rendered node is non-empty. -/
theorem descriptionLine_error_ne_nil (contents : Str) :
    descriptionLineFrom false (str "Error") USIZE_MAX contents ≠ [] :=
  ident_lines_ne_nil 'E' (str "rror: " ++ contents) 7 (by decide) (by decide)

/-- The Error entry always survives into `assembleLines` (its contents are
always present). -/
theorem error_line_mem_assembleLines (is_cause : Bool)
    (location where_ solution causes_count : Option Str)
    (causes_label : Str) (explained_causes : Option Str) (d : Str) :
    descriptionLineFrom is_cause (str "Error") USIZE_MAX d
      ∈ assembleLines is_cause location where_ (some d) solution causes_count
          causes_label explained_causes := by
  refine List.mem_map.mpr ⟨(str "Error", USIZE_MAX, some d), ?_, rfl⟩
  refine List.mem_filter.mpr ⟨?_, by simp⟩
  simp

/-- Every rendered display info is non-empty: the Error entry is always
present (the reason defaults to "Unexplained error") and renders a non-empty
line. -/
theorem as_display_string_ne_nil (info : SimpleErrorDisplayInfo) :
    info.as_display_string ≠ [] := by
  obtain ⟨a, r, s, o, u, n, ec⟩ := info
  have hor : r.or (some (str "Unexplained error"))
      = some (r.getD (str "Unexplained error")) := by cases r <;> rfl
  simp only [SimpleErrorDisplayInfo.as_display_string,
    SimpleErrorDisplayInfo.__as_display_string, hor, Option.getD_some]
  exact join_strings_ne_nil_of_mem _ _ _
    (error_line_mem_assembleLines false _ _ _ _ _ _ _)
    (descriptionLine_error_ne_nil _)

/-! ## Claim C1: the fallback rendering -/

/-- Root error of the C1 scenario: no detail, no location, no points, one
completely empty cause. -/
def rootWithOneEmptyCause : SimpleError :=
  .mk none none none none [.mk none none none none []]

/-- C1 counterexample.  The claim says a root with no explanation detail, no
location, no points and exactly one completely empty cause displays exactly
`"Error: Unexplained error"`.  In fact the empty cause is tallied as an
unexplained cause and the rendering carries an extra `Has:` line. -/
theorem C1_counterexample :
    SimpleErrorDisplayInfo.as_display_string
        ((SimpleError.as_display_struct (fun _ s => s) rootWithOneEmptyCause
          true ⟨none, false⟩).1)
      = str "Error: Unexplained error\nHas: 1 unexplained cause." ∧
    str "Error: Unexplained error\nHas: 1 unexplained cause."
      ≠ str "Error: Unexplained error" := by
  exact ⟨by decide, by decide⟩

/-- C1 (amended): a root with no detail, no location, no points and one
completely empty cause renders exactly
`"Error: Unexplained error\nHas: 1 unexplained cause."`; a root with no
fields and *no* causes renders exactly `"Error: Unexplained error"`; and for
every error (any style function, colorize flag and global state) the
display conversion returns a non-empty string. -/
theorem C1_fallback_display :
    SimpleErrorDisplayInfo.as_display_string
        ((SimpleError.as_display_struct (fun _ s => s) rootWithOneEmptyCause
          true ⟨none, false⟩).1)
      = str "Error: Unexplained error\nHas: 1 unexplained cause." ∧
    SimpleErrorDisplayInfo.as_display_string
        ((SimpleError.as_display_struct (fun _ s => s)
          (.mk none none none none []) true ⟨none, false⟩).1)
      = str "Error: Unexplained error" ∧
    ∀ (styleFn : Colorization → Str → Str) (e : SimpleError) (colorizeArg : Bool)
      (st : ShouldColorize),
      SimpleErrorDisplayInfo.as_display_string
        ((SimpleError.as_display_struct styleFn e colorizeArg st).1) ≠ [] := by
  refine ⟨by decide, by decide, fun styleFn e colorizeArg st => as_display_string_ne_nil _⟩

/-! ## Claim C3: the "Has:" tally line -/

theorem pluralize_ne_nil (n : Nat) (w : Str) (hn : n ≠ 0) : pluralize n w [] ≠ [] := by
  match n with
  | 1 =>
    intro h
    exact absurd (List.append_eq_nil.mp h).1 (by decide)
  | (k+2) =>
    intro h
    exact absurd (List.append_eq_nil.mp (List.append_eq_nil.mp
      (List.append_eq_nil.mp h).1).1).2 (by decide)

/-- The "Has:" contents when both tallies are non-zero: the *explained* count
comes first (the source's local variables are cross-named). -/
theorem causesCount_both (u l : Nat) (hu : u ≠ 0) (hl : l ≠ 0) :
    causesCountFrom u l
      = some (trimStr (pluralize l (str "explained cause") []) ++ str " and " ++
          trimStr (pluralize u (str "unexplained cause") []) ++ str ".") := by
  cases hpu : pluralize u (str "unexplained cause") [] with
  | nil => exact absurd hpu (pluralize_ne_nil u _ hu)
  | cons a as =>
    cases hpl : pluralize l (str "explained cause") [] with
    | nil => exact absurd hpl (pluralize_ne_nil l _ hl)
    | cons b bs =>
      simp [causesCountFrom, optFilter, hpu, hpl, hu, hl]

/-- Root error of the C3 scenario: one fully explained cause and one empty
cause. -/
def rootOneExplainedOneEmpty : SimpleError :=
  .mk none none none none
    [.mk none (some { SimpleErrorExplanation.default with
        explanation := some (str "Cause reason") }) none none [],
     .mk none none none none []]

/-- C3 counterexample.  The claim says a root with one fully explained cause
and one empty cause renders the line
`"Has: 1 unexplained cause and 1 explained cause."` (unexplained first) and
lists the explained cause under `"Cause:"`.  The code renders the explained
count first and uses the label `"Causes:"`; no line of the output matches the
claimed one. -/
theorem C3_counterexample :
    SimpleErrorDisplayInfo.as_display_string
        ((SimpleError.as_display_struct (fun _ s => s) rootOneExplainedOneEmpty
          true ⟨none, false⟩).1)
      = str "Error: Unexplained error\nHas: 1 explained cause and 1 unexplained cause.\nCauses: \n  - Error: Cause reason" ∧
    str "Has: 1 unexplained cause and 1 explained cause."
      ∉ rustLines (SimpleErrorDisplayInfo.as_display_string
          ((SimpleError.as_display_struct (fun _ s => s) rootOneExplainedOneEmpty
            true ⟨none, false⟩).1)) := by
  exact ⟨by decide, by decide⟩

/-- C3 (amended): when both tallies are non-zero the "Has:" line states the
*explained* count first and the unexplained count second, joined with "and";
the scenario root renders `Has: 1 explained cause and 1 unexplained cause.`
and lists the explained cause under `Causes:`. -/
theorem C3_has_line :
    (∀ u l, u ≠ 0 → l ≠ 0 →
      causesCountFrom u l
        = some (trimStr (pluralize l (str "explained cause") []) ++ str " and " ++
            trimStr (pluralize u (str "unexplained cause") []) ++ str ".")) ∧
    SimpleErrorDisplayInfo.as_display_string
        ((SimpleError.as_display_struct (fun _ s => s) rootOneExplainedOneEmpty
          true ⟨none, false⟩).1)
      = str "Error: Unexplained error\nHas: 1 explained cause and 1 unexplained cause.\nCauses: \n  - Error: Cause reason" := by
  exact ⟨fun u l hu hl => causesCount_both u l hu hl, by decide⟩

/-- C3 witness: the amended tally format at `1` and `1`. -/
theorem C3_has_line_witness :
    causesCountFrom 1 1
      = some (trimStr (pluralize 1 (str "explained cause") []) ++ str " and " ++
          trimStr (pluralize 1 (str "unexplained cause") []) ++ str ".") :=
  C3_has_line.1 1 1 (by decide) (by decide)

/-! ## Claim C8: single vs. multiple cause rendering -/

/-- Root error with one explained cause and two empty (unexplained) causes. -/
def rootOneExplainedTwoEmpty : SimpleError :=
  .mk none none none none
    [.mk none (some { SimpleErrorExplanation.default with
        explanation := some (str "Sub reason") }) none none [],
     .mk none none none none [],
     .mk none none none none []]

/-- Root error with exactly one explained cause and nothing else. -/
def rootSingleExplained : SimpleError :=
  .mk none none none none
    [.mk none (some { SimpleErrorExplanation.default with
        explanation := some (str "A") }) none none []]

/-- C8 counterexample.  The claim says a node with exactly one explained
cause renders it under the label `"Cause"` rather than `"Causes"`.  A node
with one explained cause and two unexplained ones has exactly one explained
cause, yet the label is `"Causes"` (the `"Cause"` label additionally requires
zero unexplained causes). -/
theorem C8_counterexample :
    ((SimpleError.as_display_struct (fun _ s => s) rootOneExplainedTwoEmpty
          true ⟨none, false⟩).1).explained_causes.length = 1 ∧
    ((SimpleError.as_display_struct (fun _ s => s) rootOneExplainedTwoEmpty
          true ⟨none, false⟩).1).unexplained_causes = 2 ∧
    causesLabelFrom 2 1 = str "Causes" ∧
    SimpleErrorDisplayInfo.as_display_string
        ((SimpleError.as_display_struct (fun _ s => s) rootOneExplainedTwoEmpty
          true ⟨none, false⟩).1)
      = str "Error: Unexplained error\nHas: 1 explained cause and 2 unexplained causes.\nCauses: \n  - Error: Sub reason" ∧
    str "Causes" ≠ str "Cause" := by
  exact ⟨by decide, by decide, by decide, by decide, by decide⟩

/-- C8 (amended): exactly one explained cause is rendered inline (the block is
its rendering, with no `- Cause nº K -` header), and the field label is
`"Cause"` exactly when there are additionally zero unexplained causes,
`"Causes"` otherwise; two or more explained causes are rendered under
`"Causes"`, numbered `- Cause nº K -` with K starting at 1, separated by a
blank line.  A root with a single explained cause and no unexplained one
renders it inline under `Cause:`. -/
theorem C8_cause_rendering :
    (∀ s : Str, explainedCausesBlockFrom [s] = some s) ∧
    (∀ u l : Nat,
      (l = 1 ∧ u = 0 → causesLabelFrom u l = str "Cause") ∧
      (l = 1 ∧ u ≠ 0 → causesLabelFrom u l = str "Causes") ∧
      (l ≠ 1 → causesLabelFrom u l = str "Causes")) ∧
    (∀ s1 s2 rest, explainedCausesBlockFrom (s1 :: s2 :: rest)
        = some (join_strings (str "\n\n") (numberCauses 0 (s1 :: s2 :: rest)))) ∧
    (∀ (k : Nat) (rendered : List Str) (i : Nat), i < rendered.length →
      (numberCauses k rendered)[i]?
        = some (str "- Cause nº " ++ natRepr (k + i + 1) ++ str " -\n"
            ++ (rendered[i]?).getD [])) ∧
    SimpleErrorDisplayInfo.as_display_string
        ((SimpleError.as_display_struct (fun _ s => s) rootSingleExplained
          true ⟨none, false⟩).1)
      = str "Error: Unexplained error\nCause: \n  - Error: A" := by
  refine ⟨fun s => rfl, ?_, fun s1 s2 rest => rfl, ?_, by decide⟩
  · intro u l
    refine ⟨?_, ?_, ?_⟩
    · rintro ⟨rfl, rfl⟩; rfl
    · rintro ⟨rfl, hu⟩
      simp [causesLabelFrom, hu]
    · intro hl
      simp [causesLabelFrom, hl]
  · intro k rendered
    induction rendered generalizing k with
    | nil => intro i hi; cases hi
    | cons s rest ih =>
      intro i hi
      cases i with
      | zero => simp [numberCauses]
      | succ j =>
        have hj : j < rest.length := by simpa using hi
        have := ih (k + 1) j hj
        simpa [numberCauses, Nat.add_assoc, Nat.add_comm 1 j] using this

/-- C8 witness: the label facts applied at concrete tallies. -/
theorem C8_cause_rendering_witness :
    causesLabelFrom 0 1 = str "Cause" ∧ causesLabelFrom 3 1 = str "Causes" ∧
      causesLabelFrom 0 2 = str "Causes" ∧
      (numberCauses 0 [str "x", str "y"])[1]?
        = some (str "- Cause nº " ++ natRepr 2 ++ str " -\n" ++ str "y") :=
  ⟨(C8_cause_rendering.2.1 0 1).1 ⟨rfl, rfl⟩,
   (C8_cause_rendering.2.1 3 1).2.1 ⟨rfl, by decide⟩,
   (C8_cause_rendering.2.1 0 2).2.2 (by decide),
   by simpa using C8_cause_rendering.2.2.2.1 0 [str "x", str "y"] 1 (by decide)⟩

/-! ## Claim C2: the marker filter -/

/-- A marker that does not overlap the input's address range, or whose span
has zero length, contributes no surviving marker. -/
theorem processMarkers_middle (input : Slice) (A B : List (Slice × Colorization))
    (sl : Slice) (col : Colorization)
    (h : range_contains_other sl.addr (sl.addr + sl.text.length) input.addr
          (input.addr + input.text.length) = false ∨ sl.text.length = 0) :
    processMarkers input (A ++ (sl, col) :: B) = processMarkers input (A ++ B) := by
  simp only [processMarkers, mem_dir_of_string, List.map_append, List.filter_append,
    List.map_cons, List.filter_cons]
  rcases h with h | h
  · simp [h]
  · by_cases h2 : range_contains_other sl.addr (sl.addr + sl.text.length) input.addr
        (input.addr + input.text.length) = true
    · rw [h] at h2 ⊢
      simp only [Nat.add_zero] at h2
      simp [h2]
    · simp [Bool.eq_false_iff.mpr h2]

/-- The surviving-marker list ignores a non-overlapping or empty marker
anywhere in the list, whether or not a whole-input style is present. -/
theorem survivingMarkers_middle (input : Slice) (gc : Option Colorization)
    (A B : List (Slice × Colorization)) (sl : Slice) (col : Colorization)
    (h : range_contains_other sl.addr (sl.addr + sl.text.length) input.addr
          (input.addr + input.text.length) = false ∨ sl.text.length = 0) :
    survivingMarkers input (A ++ (sl, col) :: B) gc
      = survivingMarkers input (A ++ B) gc := by
  cases gc with
  | none => exact processMarkers_middle input A B sl col h
  | some g =>
    show processMarkers input (((input, g) :: A) ++ (sl, col) :: B)
        = processMarkers input (((input, g) :: A) ++ B)
    exact processMarkers_middle input ((input, g) :: A) B sl col h

/-- C2 counterexample.  The claim says every marker whose span is *not fully
contained* in the base's byte range is silently discarded and contributes
nothing.  Take the base slice at addresses `[3, 7)` and a marker slice at
`[0, 7)`: the marker's span starts before the base's range, so it is not
contained in it, yet it survives (clamped to the whole base) and changes the
output. -/
theorem C2_counterexample :
    (mem_dir_of_string ⟨0, str "abcdefg"⟩).1 < (mem_dir_of_string ⟨3, str "abcd"⟩).1 ∧
    survivingMarkers ⟨3, str "abcd"⟩ [(⟨0, str "abcdefg"⟩, ⟨some 5, none, none⟩)] none
      = [(0, 4, ⟨some 5, none, none⟩)] ∧
    colorize (fun _ s => '[' :: s ++ [']']) ⟨3, str "abcd"⟩
        [(⟨0, str "abcdefg"⟩, ⟨some 5, none, none⟩)] none
      ≠ colorize (fun _ s => '[' :: s ++ [']']) ⟨3, str "abcd"⟩ [] none := by
  exact ⟨by decide, by decide, by decide⟩

/-- C2 (amended): `colorize` silently discards every marker whose span does
not *overlap* the base string's byte range (in particular any marker taken
from an unrelated, disjoint string) and every marker whose span has zero
length — such a marker contributes nothing to the plan or the output; a
marker that overlaps the base only partially is instead clamped to the
intersection and kept. -/
theorem C2_marker_filter (styleFn : Colorization → Str → Str) (input : Slice)
    (gc : Option Colorization) (A B : List (Slice × Colorization))
    (sl : Slice) (col : Colorization)
    (h : range_contains_other sl.addr (sl.addr + sl.text.length) input.addr
          (input.addr + input.text.length) = false ∨ sl.text.length = 0) :
    colorizePlan input (A ++ (sl, col) :: B) gc = colorizePlan input (A ++ B) gc ∧
    colorize styleFn input (A ++ (sl, col) :: B) gc
      = colorize styleFn input (A ++ B) gc := by
  have hs := survivingMarkers_middle input gc A B sl col h
  constructor
  · simp only [colorizePlan, segmentsOf, cutPoints, hs]
  · simp only [colorize, colorizePlan, segmentsOf, cutPoints, hs]

/-- C2 witness: a marker from a disjoint (unrelated) string is dropped. -/
theorem C2_marker_filter_witness :
    colorize (fun _ s => '[' :: s ++ [']']) ⟨0, str "base"⟩
        ([] ++ (⟨100, str "other"⟩, ⟨some 5, none, none⟩) :: []) none
      = colorize (fun _ s => '[' :: s ++ [']']) ⟨0, str "base"⟩ ([] ++ []) none :=
  (C2_marker_filter (fun _ s => '[' :: s ++ [']']) ⟨0, str "base"⟩ none [] []
    ⟨100, str "other"⟩ ⟨some 5, none, none⟩ (Or.inl (by decide))).2

/-! ## Claim C10: whitespace-only locations -/

theorem splitNL_append_newline (xs ys : Str) :
    splitNL (xs ++ '\n' :: ys) = splitNL xs ++ splitNL ys := by
  induction xs with
  | nil =>
    cases h : splitNL ys with
    | nil => exact absurd h (splitNL_ne_nil ys)
    | cons a b => simp [splitNL, h]
  | cons c cs ih =>
    cases h2 : splitNL cs with
    | nil => exact absurd h2 (splitNL_ne_nil _)
    | cons m ms =>
      rw [h2] at ih
      by_cases hc : c = '\n' <;>
        simp [List.cons_append, splitNL, ih, h2, hc]

/-- A newline-free string splits into itself. -/
theorem splitNL_no_newline (x : Str) (h : '\n' ∉ x) : splitNL x = [x] := by
  induction x with
  | nil => rfl
  | cons c cs ih =>
    have hc : c ≠ '\n' := fun hq => h (hq ▸ List.mem_cons_self c cs)
    have hcs : '\n' ∉ cs := fun hm => h (List.mem_cons_of_mem _ hm)
    simp [splitNL, ih hcs, hc]

/-- Splitting a newline-join at the newlines recovers the pieces' splits. -/
theorem splitNL_join : ∀ (a : Str) (l : List Str),
    splitNL (join_strings (str "\n") (a :: l)) = splitNL a ++ l.flatMap splitNL
  | _, [] => by simp [join_strings]
  | a, b :: l => by
    have ih := splitNL_join b l
    show splitNL (a ++ str "\n" ++ join_strings (str "\n") (b :: l)) = _
    rw [List.append_assoc]
    show splitNL (a ++ '\n' :: join_strings (str "\n") (b :: l)) = _
    rw [splitNL_append_newline, ih]
    simp

/-- A non-empty element not ending in a carriage return stays a line. -/
theorem mem_rustLinesAux : ∀ (p : List Str) (x : Str), x ∈ p → x ≠ [] →
    x.getLast? ≠ some '\r' → x ∈ rustLinesAux p
  | [], x, hx, _, _ => absurd hx (List.not_mem_nil x)
  | [_], x, hx, hne, _ => by
    rcases List.mem_singleton.mp hx with rfl
    simp [rustLinesAux, hne]
  | piece :: q :: rest, x, hx, hne, hcr => by
    rcases List.mem_cons.mp hx with rfl | hx'
    · simp [rustLinesAux, hcr]
    · exact List.mem_cons_of_mem _ (mem_rustLinesAux (q :: rest) x hx' hne hcr)

/-- A non-empty, newline-free element of a line list (not ending in a
carriage return) is one of the `rustLines` of the newline-join. -/
theorem mem_rustLines_join (l : List Str) (x : Str) (hx : x ∈ l)
    (hnl : '\n' ∉ x) (hcr : x.getLast? ≠ some '\r') (hne : x ≠ []) :
    x ∈ rustLines (join_strings (str "\n") l) := by
  obtain ⟨a, l', rfl⟩ : ∃ a l', l = a :: l' := by
    cases l with
    | nil => cases hx
    | cons a l' => exact ⟨a, l', rfl⟩
  have hxmem : x ∈ splitNL (join_strings (str "\n") (a :: l')) := by
    rw [splitNL_join]
    rcases List.mem_cons.mp hx with rfl | hx'
    · exact List.mem_append_left _ (by rw [splitNL_no_newline x hnl]; simp)
    · refine List.mem_append_right _ (List.mem_flatMap.mpr ⟨x, hx', ?_⟩)
      rw [splitNL_no_newline x hnl]; simp
  rw [rustLines]
  exact mem_rustLinesAux _ x hxmem hne hcr

/-- `colorize` with no markers and no whole-input style is the identity. -/
theorem colorize_no_markers (styleFn : Colorization → Str → Str) (input : Slice) :
    colorize styleFn input [] none = input.text := rfl

/-- The At entry survives into `assembleLines` whenever the location is
present. -/
theorem at_line_mem_assembleLines (is_cause : Bool)
    (location description solution causes_count : Option Str)
    (causes_label : Str) (explained_causes : Option Str) (d : Str) :
    descriptionLineFrom is_cause (str "At") USIZE_MAX d
      ∈ assembleLines is_cause location (some d) description solution causes_count
          causes_label explained_causes := by
  refine List.mem_map.mpr ⟨(str "At", USIZE_MAX, some d), ?_, rfl⟩
  refine List.mem_filter.mpr ⟨by simp, by simp⟩

/-- The rendered string of any display info, as a join of its field lines. -/
theorem as_display_string_lines (info : SimpleErrorDisplayInfo) :
    info.as_display_string = join_strings (str "\n")
      (assembleLines false
        (locationFrom info.on_line_and_column info.up_to_line_an_column)
        info.at_ (info.reason.or (some (str "Unexplained error"))) info.solution
        (causesCountFrom info.unexplained_causes info.explained_causes.length)
        (causesLabelFrom info.unexplained_causes info.explained_causes.length)
        ((explainedCausesBlockFrom (renderCausesList info.explained_causes)).map
          (fun s => '\n' :: s))) := by
  obtain ⟨a, r, s, o, u, n, ec⟩ := info
  rfl

/-- C10: a `SimpleError` whose location is non-empty but whitespace-only and
whose explanation contributes no colorization markers (and no whole-input
marker) gets `at = Some ""` — present, not absent — so the node counts as
explained and the rendered text contains an `At: ` line with empty content. -/
theorem C10_whitespace_location (styleFn : Colorization → Str → Str) (w : Slice)
    (detail : Option SimpleErrorExplanation) (sp ep : Option (Nat × Nat))
    (causes : List SimpleError) (colorizeArg : Bool) (st : ShouldColorize)
    (hwm : (detail.getD SimpleErrorExplanation.default).whole_marker = none)
    (hcm : (detail.getD SimpleErrorExplanation.default).colorization_markers = [])
    (hne : w.text ≠ []) (hws : trimStr w.text = []) :
    ((SimpleError.as_display_struct styleFn (.mk (some w) detail sp ep causes)
        colorizeArg st).1).at_ = some [] ∧
    ((SimpleError.as_display_struct styleFn (.mk (some w) detail sp ep causes)
        colorizeArg st).1).is_explained = true ∧
    str "At: " ∈ rustLines (((SimpleError.as_display_struct styleFn
        (.mk (some w) detail sp ep causes) colorizeArg st).1).as_display_string) := by
  have hres : (SimpleError.as_display_struct styleFn (.mk (some w) detail sp ep causes)
      colorizeArg st).1 = SimpleError.__as_display_struct styleFn
        (.mk (some w) detail sp ep causes) := rfl
  have hat : (SimpleError.__as_display_struct styleFn
      (.mk (some w) detail sp ep causes)).at_ = some [] := by
    simp only [SimpleError.__as_display_struct, SimpleErrorDisplayInfo.at_, hwm, hcm]
    rw [show (Option.map (fun ww =>
        string_colorization_colorize styleFn ww none []) (some w)) = some w.text from rfl]
    have hie : w.text.isEmpty = false := by
      cases hwt : w.text with
      | nil => exact absurd hwt hne
      | cons c cs => rfl
    simp [optFilter, hie, hws]
  rw [hres]
  refine ⟨hat, ?_, ?_⟩
  · simp [SimpleErrorDisplayInfo.is_explained, hat]
  · rw [as_display_string_lines, hat]
    have hAtLine : descriptionLineFrom false (str "At") USIZE_MAX [] = str "At: " := by
      decide
    refine mem_rustLines_join _ (str "At: ") ?_ (by decide) (by decide) (by decide)
    rw [← hAtLine]
    exact at_line_mem_assembleLines false _ _ _ _ _ _ []

/-- C10 witness: a location of a single blank, no detail. -/
theorem C10_whitespace_location_witness :
    ((SimpleError.as_display_struct (fun _ s => s)
        (.mk (some ⟨0, str " "⟩) none none none []) true ⟨none, false⟩).1).at_
      = some [] ∧
    ((SimpleError.as_display_struct (fun _ s => s)
        (.mk (some ⟨0, str " "⟩) none none none []) true ⟨none, false⟩).1).is_explained
      = true :=
  ⟨(C10_whitespace_location (fun _ s => s) ⟨0, str " "⟩ none none none [] true
      ⟨none, false⟩ rfl rfl (by decide) (by decide)).1,
   (C10_whitespace_location (fun _ s => s) ⟨0, str " "⟩ none none none [] true
      ⟨none, false⟩ rfl rfl (by decide) (by decide)).2.1⟩

/-! ## Claim C7: complexity ordering of explained causes -/

/-- The explained causes of a display info are sorted by ascending
complexity. -/
def sortedByComplexity (info : SimpleErrorDisplayInfo) : Prop :=
  List.Sorted byComplexity info.explained_causes

/-- `AllInfosList` is membership-wise `AllInfos`. -/
theorem allInfosList_iff (P : SimpleErrorDisplayInfo → Prop) :
    ∀ l : List SimpleErrorDisplayInfo, (AllInfosList P l ↔ ∀ i ∈ l, AllInfos P i)
  | [] => by simp [AllInfosList]
  | c :: cs => by
    have ih := allInfosList_iff P cs
    simp [AllInfosList, ih]

mutual

theorem sorted_of_display (styleFn : Colorization → Str → Str) :
    ∀ e : SimpleError,
      AllInfos sortedByComplexity (SimpleError.__as_display_struct styleFn e)
  | .mk w d sp ep causes => by
    have hlist := sorted_of_displayList styleFn causes
    simp only [SimpleError.__as_display_struct, AllInfos]
    constructor
    · show List.Sorted byComplexity (SimpleErrorDisplayInfo.explained_causes _)
      simp only [SimpleErrorDisplayInfo.explained_causes]
      exact List.sorted_insertionSort byComplexity _
    · rw [allInfosList_iff]
      intro i hi
      have hmem : i ∈ (displayList styleFn causes).filter (fun c => c.is_explained) :=
        (List.perm_insertionSort byComplexity _).mem_iff.mp hi
      exact hlist i (List.mem_filter.mp hmem).1

theorem sorted_of_displayList (styleFn : Colorization → Str → Str) :
    ∀ es : List SimpleError, ∀ i ∈ displayList styleFn es,
      AllInfos sortedByComplexity i
  | [] => by simp [displayList]
  | e :: es => by
    intro i hi
    rw [displayList] at hi
    rcases List.mem_cons.mp hi with rfl | hi'
    · exact sorted_of_display styleFn e
    · exact sorted_of_displayList styleFn es i hi'

end

/-- A leaf cause with just a reason. -/
def leafWithReason (reason : Str) : SimpleError :=
  .mk none (some { SimpleErrorExplanation.default with explanation := some reason })
    none none []

/-- Root with three explained causes of subtree sizes 3, 1 and 1 (in that
listed order). -/
def rootThreeCauses : SimpleError :=
  .mk none none none none
    [.mk none (some { SimpleErrorExplanation.default with
        explanation := some (str "Big") }) none none
      [leafWithReason (str "x"), leafWithReason (str "y")],
     leafWithReason (str "A"), leafWithReason (str "B")]

/-- C7: at every depth of any `as_display_struct` result, the explained
causes are sorted ascending by complexity (1 plus the sum of the children's
complexities); the sort is stable (modelled by insertion sort, which realizes
Rust's stable `sort_by_key`), so for a root with causes of subtree sizes
3, 1, 1 the two size-1 causes keep their relative order and the size-3
subtree is listed last. -/
theorem C7_sorted_by_complexity :
    (∀ (styleFn : Colorization → Str → Str) (e : SimpleError) (colorizeArg : Bool)
        (st : ShouldColorize),
      AllInfos sortedByComplexity
        ((SimpleError.as_display_struct styleFn e colorizeArg st).1)) ∧
    ((SimpleError.__as_display_struct (fun _ s => s) rootThreeCauses).explained_causes.map
        (fun i => (i.complexity, i.reason))
      = [(1, some (str "A")), (1, some (str "B")), (3, some (str "Big"))]) := by
  refine ⟨fun styleFn e colorizeArg st => sorted_of_display styleFn e, by decide⟩

/-! ## Claim C4: segment structure of the styling engine -/

theorem mem_dedupConsec : ∀ (l : List Nat) (x : Nat), x ∈ dedupConsec l ↔ x ∈ l
  | [], x => by simp [dedupConsec]
  | [a], x => by simp [dedupConsec]
  | a :: b :: rest, x => by
    have ih := mem_dedupConsec (b :: rest) x
    by_cases hab : a = b
    · subst hab
      rw [dedupConsec, if_pos rfl]
      rw [ih]
      simp [List.mem_cons]
    · rw [dedupConsec, if_neg hab]
      simp [List.mem_cons, ih]

theorem sorted_lt_dedupConsec : ∀ l : List Nat,
    List.Sorted (· ≤ ·) l → List.Sorted (· < ·) (dedupConsec l)
  | [], _ => by simp [dedupConsec]
  | [a], _ => by simp [dedupConsec]
  | a :: b :: rest, h => by
    have htail : List.Sorted (· ≤ ·) (b :: rest) := h.of_cons
    have ih := sorted_lt_dedupConsec (b :: rest) htail
    by_cases hab : a = b
    · simpa [dedupConsec, hab] using ih
    · rw [dedupConsec, if_neg hab]
      rw [List.sorted_cons]
      refine ⟨?_, ih⟩
      intro y hy
      have hyb : y ∈ b :: rest := (mem_dedupConsec _ _).mp hy
      have hab' : a ≤ b := (List.sorted_cons.mp h).1 b (List.mem_cons_self _ _)
      have hby : b ≤ y := by
        rcases List.mem_cons.mp hyb with rfl | hy'
        · exact le_refl y
        · exact (List.sorted_cons.mp htail).1 y hy'
      omega

/-- `coveredBy` as an existential. -/
theorem coveredBy_iff (segs : List (Nat × Nat)) (x : Nat) :
    coveredBy segs x = true ↔ ∃ seg ∈ segs, seg.1 ≤ x ∧ x < seg.2 := by
  simp [coveredBy, List.any_eq_true, Bool.and_eq_true, decide_eq_true_eq]

/-- Over a strictly sorted cut-point list, the segments cover exactly the
positions between some cut point from below and some cut point from above
(i.e. the interval from the least to the greatest cut point). -/
theorem covered_pairsOf : ∀ (l : List Nat), List.Sorted (· < ·) l → ∀ x : Nat,
    ((∃ seg ∈ pairsOf l, seg.1 ≤ x ∧ x < seg.2) ↔
      ((∃ a ∈ l, a ≤ x) ∧ (∃ b ∈ l, x < b)))
  | [], _, x => by simp [pairsOf]
  | [a], _, x => by
    simp only [pairsOf, List.not_mem_nil, false_and, exists_false,
      List.mem_singleton, exists_eq_left, false_iff, not_and]
    omega
  | a :: b :: rest, h, x => by
    have htail := h.of_cons
    have ih := covered_pairsOf (b :: rest) htail x
    have hab : a < b := (List.sorted_cons.mp h).1 b (List.mem_cons_self _ _)
    have hble : ∀ y ∈ b :: rest, b ≤ y := by
      intro y hy
      rcases List.mem_cons.mp hy with rfl | hy'
      · exact le_refl y
      · exact le_of_lt ((List.sorted_cons.mp htail).1 y hy')
    rw [pairsOf]
    constructor
    · rintro ⟨seg, hseg, hs1, hs2⟩
      rcases List.mem_cons.mp hseg with rfl | hseg'
      · exact ⟨⟨a, by simp, hs1⟩, ⟨b, by simp, hs2⟩⟩
      · obtain ⟨⟨a', ha', hax⟩, ⟨b', hb', hxb⟩⟩ := ih.mp ⟨seg, hseg', hs1, hs2⟩
        exact ⟨⟨a', List.mem_cons_of_mem _ ha', hax⟩,
          ⟨b', List.mem_cons_of_mem _ hb', hxb⟩⟩
    · rintro ⟨⟨a', ha', hax⟩, ⟨b', hb', hxb⟩⟩
      by_cases hxb2 : x < b
      · have hax2 : a ≤ x := by
          rcases List.mem_cons.mp ha' with rfl | ha''
          · exact hax
          · exact le_trans (le_of_lt hab) (le_trans (hble a' ha'') hax)
        exact ⟨(a, b), List.mem_cons_self _ _, hax2, hxb2⟩
      · have hb'' : b' ∈ b :: rest := by
          rcases List.mem_cons.mp hb' with rfl | h'
          · exfalso; omega
          · exact h'
        obtain ⟨seg, hseg, h1, h2⟩ :=
          ih.mpr ⟨⟨b, List.mem_cons_self _ _, by omega⟩, ⟨b', hb'', hxb⟩⟩
        exact ⟨seg, List.mem_cons_of_mem _ hseg, h1, h2⟩

theorem pairsOf_start_ge : ∀ (b : Nat) (l : List Nat),
    List.Sorted (· < ·) (b :: l) → ∀ q ∈ pairsOf (b :: l), b ≤ q.1
  | b, [], _, q, hq => by simp [pairsOf] at hq
  | b, c :: l, h, q, hq => by
    rw [pairsOf] at hq
    rcases List.mem_cons.mp hq with rfl | hq'
    · exact le_refl b
    · have hbc : b < c := (List.sorted_cons.mp h).1 c (List.mem_cons_self _ _)
      exact le_trans (le_of_lt hbc) (pairsOf_start_ge c l h.of_cons q hq')

/-- Adjacent segments of a strictly sorted cut-point list never overlap. -/
theorem pairsOf_pairwise : ∀ (l : List Nat), List.Sorted (· < ·) l →
    List.Pairwise (fun p q : Nat × Nat => p.2 ≤ q.1) (pairsOf l)
  | [], _ => by simp [pairsOf]
  | [a], _ => by simp [pairsOf]
  | a :: b :: rest, h => by
    have htail := h.of_cons
    have ih := pairsOf_pairwise (b :: rest) htail
    rw [pairsOf]
    refine List.Pairwise.cons ?_ ih
    intro q hq
    exact pairsOf_start_ge b rest htail q hq

/-- With a whole-input style and a non-empty input, the implicit marker
survives first, clamped to the whole of the input. -/
theorem survivingMarkers_some (input : Slice) (mods : List (Slice × Colorization))
    (g : Colorization) (h : 0 < input.text.length) :
    survivingMarkers input mods (some g)
      = (0, input.text.length, g) :: processMarkers input mods := by
  show processMarkers input ((input, g) :: mods) = _
  simp only [processMarkers, mem_dir_of_string, List.map_cons, List.filter_cons]
  have h1 : range_contains_other input.addr (input.addr + input.text.length)
      input.addr (input.addr + input.text.length) = true := by
    simp only [range_contains_other, Bool.and_eq_true, decide_eq_true_eq]
    omega
  rw [h1]
  simp only [if_true, List.map_cons, List.filter_cons, Nat.sub_self,
    Nat.add_sub_cancel_left, Nat.min_self, Nat.zero_min]
  have h2 : decide ((0, input.text.length, g).2.1 > (0, input.text.length, g).1)
      = true := by simp [h]
  rw [h2]
  simp

/-- Every surviving marker is clamped into `[0, input_len]`. -/
theorem processMarkers_bounded (input : Slice) (mods : List (Slice × Colorization)) :
    ∀ r ∈ processMarkers input mods,
      r.1 ≤ input.text.length ∧ r.2.1 ≤ input.text.length := by
  intro r hr
  simp only [processMarkers, mem_dir_of_string, List.mem_filter, List.mem_map] at hr
  obtain ⟨⟨q, hq, rfl⟩, _⟩ := hr
  exact ⟨Nat.min_le_right _ _, Nat.min_le_right _ _⟩

/-- C4 counterexample.  The claim says the union of the elementary segments
exactly covers the whole base string for *every* marker set.  With base
`"abcdef"` and a single marker on its sub-slice `[2, 4)` there is exactly one
segment, `(2, 4)`; byte 0 of the base lies in no segment. -/
theorem C4_counterexample :
    segmentsOf ⟨0, str "abcdef"⟩ [(⟨2, str "cd"⟩, ⟨some 5, none, none⟩)] none
        = [(2, 4)] ∧
    coveredBy (segmentsOf ⟨0, str "abcdef"⟩ [(⟨2, str "cd"⟩, ⟨some 5, none, none⟩)] none) 0
        = false ∧
    0 < (⟨0, str "abcdef"⟩ : Slice).text.length := by
  exact ⟨by decide, by decide, by decide⟩

/-- C4 (amended): for every base string and marker set the elementary
segments are pairwise non-overlapping, and their union is exactly the set of
positions lying between some cut point from below and some cut point from
above — the contiguous interval from the least to the greatest cut point.
When a whole-string style is present and the base is non-empty, this interval
is the whole base; without it, bytes outside every surviving marker are in no
segment. -/
theorem C4_segment_coverage (input : Slice) (mods : List (Slice × Colorization))
    (gc : Option Colorization) :
    List.Pairwise (fun p q : Nat × Nat => p.2 ≤ q.1) (segmentsOf input mods gc) ∧
    (∀ x : Nat, coveredBy (segmentsOf input mods gc) x = true ↔
      ((∃ a ∈ cutPoints input mods gc, a ≤ x) ∧
       (∃ b ∈ cutPoints input mods gc, x < b))) ∧
    (gc.isSome = true → 0 < input.text.length →
      ∀ x : Nat,
        (coveredBy (segmentsOf input mods gc) x = true ↔ x < input.text.length)) := by
  have hsorted : List.Sorted (· < ·) (cutPoints input mods gc) :=
    sorted_lt_dedupConsec _ (List.sorted_insertionSort _ _)
  refine ⟨pairsOf_pairwise _ hsorted, ?_, ?_⟩
  · intro x
    rw [coveredBy_iff]
    exact covered_pairsOf _ hsorted x
  · intro hgc hlen x
    obtain ⟨g, rfl⟩ := Option.isSome_iff_exists.mp hgc
    have hcut : ∀ y : Nat, (y ∈ cutPoints input mods (some g) ↔
        y ∈ (survivingMarkers input mods (some g)).flatMap (fun r => [r.1, r.2.1])) := by
      intro y
      rw [cutPoints, mem_dedupConsec]
      simp
    have hzero : 0 ∈ cutPoints input mods (some g) := by
      rw [hcut, survivingMarkers_some input mods g hlen]
      simp
    have hlenmem : input.text.length ∈ cutPoints input mods (some g) := by
      rw [hcut, survivingMarkers_some input mods g hlen]
      simp
    have hbound : ∀ y ∈ cutPoints input mods (some g), y ≤ input.text.length := by
      intro y hy
      rw [hcut, survivingMarkers_some input mods g hlen] at hy
      rw [List.flatMap_cons] at hy
      rcases List.mem_append.mp hy with h' | h'
      · rcases List.mem_cons.mp h' with rfl | h''
        · exact Nat.zero_le _
        · rcases List.mem_cons.mp h'' with rfl | h'''
          · exact le_refl _
          · cases h'''
      · obtain ⟨r, hr, hy'⟩ := List.mem_flatMap.mp h'
        have hb := processMarkers_bounded input mods r hr
        rcases List.mem_cons.mp hy' with rfl | h''
        · exact hb.1
        · rcases List.mem_cons.mp h'' with rfl | h'''
          · exact hb.2
          · cases h'''
    simp only [coveredBy_iff, segmentsOf]
    rw [covered_pairsOf _ hsorted x]
    constructor
    · rintro ⟨_, ⟨b, hb, hxb⟩⟩
      exact lt_of_lt_of_le hxb (hbound b hb)
    · intro hx
      exact ⟨⟨0, hzero, Nat.zero_le x⟩, ⟨input.text.length, hlenmem, hx⟩⟩

/-- C4 witness: with the whole-input style present every byte of the base is
covered by some elementary segment. -/
theorem C4_segment_coverage_witness :
    coveredBy (segmentsOf ⟨0, str "abcdef"⟩ [(⟨2, str "cd"⟩, ⟨some 5, none, none⟩)]
        (some ⟨none, none, some 2⟩)) 0 = true :=
  ((C4_segment_coverage ⟨0, str "abcdef"⟩ [(⟨2, str "cd"⟩, ⟨some 5, none, none⟩)]
      (some ⟨none, none, some 2⟩)).2.2 (by decide) (by decide) 0).mpr (by decide)

/-! ## Claim C9 witness -/

/-- C9 witness: the amended theorem at a state that already has a manual
override, where restoration is exact. -/
theorem C9_state_restored_witness :
    ((SimpleError.as_display_struct (fun _ s => s) (.mk none none none none [])
          false ⟨some true, false⟩).2).should_colorize
        = ShouldColorize.should_colorize ⟨some true, false⟩ ∧
      (SimpleError.as_display_struct (fun _ s => s) (.mk none none none none [])
          false ⟨some true, false⟩).2 = ⟨some true, false⟩ :=
  ⟨(C9_state_restored (fun _ s => s) (.mk none none none none []) false ⟨some true, false⟩).1,
   (C9_state_restored (fun _ s => s) (.mk none none none none []) false ⟨some true, false⟩).2.2
     (by decide)⟩
